import Mathlib

/-!
Verification of the toast notification manager of the InternetClock repository
(the `use-toast` module).  The module is a small event-driven store: a reducer
over a list of toasts, a timer registry (`toastTimeouts : Map<string, handle>`)
for pending auto-removal, a dispatch funnel, and a `toast` creation facade.

Embedding conventions:
* The timer registry is modelled by its observable contents: an association
  list from toast id to the scheduled delay in milliseconds.  `setTimeout`
  handles and the wall clock are not modelled; scheduling an entry stands for
  arming a timer, an empty list stands for an empty registry.
* The source reducer mutates the module-level `toastTimeouts` map from inside
  the `DISMISS_TOAST` and `CLEAR_ALL_TOASTS` cases, so the embedded `reducer`
  takes and returns the registry explicitly: `State → Timers → Action →
  State × Timers`.
* JavaScript object spread `{...t, ...patch}` is modelled by `applyPatch`;
  a `Partial<ToasterToast>` is a record of `Option`-wrapped fields where
  `none` means the key is absent from the patch.
* JavaScript string truthiness (`if (toastId)`) is modelled explicitly:
  `some ""` is falsy, `some s` with `s ≠ ""` is truthy, `none` is falsy.
* `onOpenChange` is a function-valued field and listener fan-out calls
  external callbacks; neither affects the store state or the registry, so
  they are not part of the embedded state.
* React-node content (`title`, `description`, `action`, `variant`) is opaque
  to the manager; it is embedded as `Option String`.
-/

namespace UseToast

/-- `const TOAST_LIMIT = 5`. -/
def TOAST_LIMIT : Nat := 5

/-- `const TOAST_REMOVE_DELAY = 5000`. -/
def TOAST_REMOVE_DELAY : Nat := 5000

/-- `Number.MAX_SAFE_INTEGER = 2^53 - 1`. -/
def MAX_SAFE_INTEGER : Nat := 9007199254740991

/-- `ToasterToast`: the toast record held in state.  `isOpen` embeds the
`open` field (a Lean keyword). -/
structure ToasterToast where
  id : String
  title : Option String
  description : Option String
  action : Option String
  variant : Option String
  isOpen : Bool
  duration : Option Nat
  deriving Repr, DecidableEq

/-- `Partial<ToasterToast> & { id: string }`: the payload of `UPDATE_TOAST`.
An outer `none` means the key is absent from the partial object. -/
structure ToastPatch where
  id : String
  title : Option (Option String)
  description : Option (Option String)
  action : Option (Option String)
  variant : Option (Option String)
  isOpen : Option Bool
  duration : Option (Option Nat)
  deriving Repr, DecidableEq

/-- Object spread `{ ...t, ...patch }` where `patch` always carries `id`. -/
def applyPatch (t : ToasterToast) (p : ToastPatch) : ToasterToast :=
  { id := p.id
    title := p.title.getD t.title
    description := p.description.getD t.description
    action := p.action.getD t.action
    variant := p.variant.getD t.variant
    isOpen := p.isOpen.getD t.isOpen
    duration := p.duration.getD t.duration }

/-- The action union type of the module. -/
inductive Action where
  | addToast (t : ToasterToast)
  | updateToast (p : ToastPatch)
  | dismissToast (toastId : Option String)
  | removeToast (toastId : Option String)
  | clearAllToasts
  deriving Repr, DecidableEq

/-- `interface State { toasts: ToasterToast[] }`. -/
structure State where
  toasts : List ToasterToast
  deriving Repr, DecidableEq

/-- Observable contents of `toastTimeouts`: toast id paired with the delay
(ms) of the pending removal timer. -/
abbrev Timers := List (String × Nat)

/-- `toastTimeouts.get(id)`, as far as the delay is observable. -/
def findTimer : Timers → String → Option Nat
  | [], _ => none
  | (i, d) :: rest, tid => if i = tid then some d else findTimer rest tid

/-- `addToRemoveQueue(toastId, duration?)`: cancel any pending timer for the
id, then arm a timer with delay `duration ?? TOAST_REMOVE_DELAY`. -/
def addToRemoveQueue (timers : Timers) (toastId : String)
    (duration : Option Nat) : Timers :=
  (toastId, duration.getD TOAST_REMOVE_DELAY) ::
    timers.filter (fun p => p.1 != toastId)

/-- `removeFromRemoveQueue(toastId)`: cancel and delete the timer if present. -/
def removeFromRemoveQueue (timers : Timers) (toastId : String) : Timers :=
  timers.filter (fun p => p.1 != toastId)

/-- The `reducer`.  The source mutates the module-level `toastTimeouts` from
the `DISMISS_TOAST` case (via `addToRemoveQueue`) and the `CLEAR_ALL_TOASTS`
case (`toastTimeouts.clear()`), so the registry is threaded explicitly. -/
def reducer (state : State) (timers : Timers) (action : Action) :
    State × Timers :=
  match action with
  | .addToast t =>
      (⟨(t :: state.toasts).take TOAST_LIMIT⟩, timers)
  | .updateToast p =>
      (⟨state.toasts.map fun t => if t.id = p.id then applyPatch t p else t⟩,
       timers)
  | .dismissToast toastId =>
      let armAll : Timers :=
        state.toasts.foldl (fun tm t => addToRemoveQueue tm t.id t.duration)
          timers
      let timers' : Timers :=
        match toastId with
        | some tid => if tid = "" then armAll else addToRemoveQueue timers tid none
        | none => armAll
      (⟨state.toasts.map fun t =>
          if some t.id = toastId ∨ toastId = none then
            { t with isOpen := false }
          else t⟩,
       timers')
  | .removeToast toastId =>
      match toastId with
      | none => (⟨[]⟩, timers)
      | some tid => (⟨state.toasts.filter fun t => t.id != tid⟩, timers)
  | .clearAllToasts =>
      (⟨[]⟩, ([] : Timers))

/-- The store: `memoryState` together with the timer registry. -/
structure Sys where
  state : State
  timers : Timers
  deriving Repr, DecidableEq

/-- `dispatch(action)`: apply the reducer to the module state.  Listener
fan-out performs no state change and is not modelled. -/
def dispatch (sys : Sys) (action : Action) : Sys :=
  let r := reducer sys.state sys.timers action
  ⟨r.1, r.2⟩

/-- Dispatching a sequence of actions in order. -/
def dispatchAll (sys : Sys) (actions : List Action) : Sys :=
  actions.foldl dispatch sys

/-- `memoryState = { toasts: [] }` with an empty timer registry. -/
def initialSys : Sys := ⟨⟨[]⟩, []⟩

/-- Decimal rendering of a natural number: the embedding of JavaScript
`Number.prototype.toString()` on nonnegative integers. -/
def natToString (n : Nat) : String :=
  if n = 0 then "0"
  else String.mk ((Nat.digits 10 n).reverse.map Nat.digitChar)

/-- `genId()`: `count = (count + 1) % Number.MAX_SAFE_INTEGER; return
count.toString()`.  The module-level counter is threaded explicitly. -/
def genId (count : Nat) : String × Nat :=
  ((natToString ((count + 1) % MAX_SAFE_INTEGER)),
   (count + 1) % MAX_SAFE_INTEGER)

/-- Counter value after `n` calls to `genId`, starting from `count = 0`. -/
def countAfter : Nat → Nat
  | 0 => 0
  | n + 1 => (genId (countAfter n)).2

/-- The id returned by the `n`-th call to `genId` (1-indexed) in a process. -/
def nthId (n : Nat) : String := (genId (countAfter (n - 1))).1

/-- `Toast = Omit<ToasterToast, "id">`: caller-supplied creation input. -/
structure ToastInput where
  title : Option String
  description : Option String
  action : Option String
  variant : Option String
  duration : Option Nat
  deriving Repr, DecidableEq

/-- The `toast({...})` facade: generate an id, dispatch `ADD_TOAST` with
`open: true`, then — unless `duration === 0` — arm auto-removal via
`addToRemoveQueue(id, duration)`.  Returns the new store, the new counter
value and the generated id (the `update`/`dismiss` closures of the returned
handle are the corresponding dispatches modelled elsewhere). -/
def toast (sys : Sys) (count : Nat) (props : ToastInput) :
    Sys × Nat × String :=
  let g := genId count
  let sys1 := dispatch sys (.addToast
    { id := g.1
      title := props.title
      description := props.description
      action := props.action
      variant := props.variant
      isOpen := true
      duration := props.duration })
  let sys2 :=
    if props.duration = some 0 then sys1
    else { sys1 with timers := addToRemoveQueue sys1.timers g.1 props.duration }
  (sys2, g.2, g.1)

/-- Folding `ADD_TOAST` dispatches from the initial store. -/
def applyAdds (ts : List ToasterToast) : Sys :=
  dispatchAll initialSys (ts.map Action.addToast)

/-- A toast with only the id and open flag set, for concrete instances. -/
def mkT (i : String) : ToasterToast :=
  ⟨i, none, none, none, none, true, none⟩

/-- The per-toast transformation performed by the `DISMISS_TOAST` case. -/
def dismissFlag (toastId : Option String) (t : ToasterToast) : ToasterToast :=
  if some t.id = toastId ∨ toastId = none then { t with isOpen := false } else t

/-! ### Helper lemmas -/

lemma map_id_of_mem {α : Type} (l : List α) (f : α → α)
    (h : ∀ a ∈ l, f a = a) : l.map f = l := by
  induction l with
  | nil => rfl
  | cons a l ih =>
      simp only [List.map_cons]
      rw [h a (List.mem_cons_self a l),
        ih (fun b hb => h b (List.mem_cons_of_mem a hb))]

lemma map_idem {α : Type} (f : α → α) (hf : ∀ a, f (f a) = f a) :
    ∀ l : List α, (l.map f).map f = l.map f := by
  intro l
  induction l with
  | nil => rfl
  | cons a l ih => simp only [List.map_cons, hf a, ih]

lemma take_append_take {α : Type} (A B : List α) (n : Nat) :
    (A ++ B.take n).take n = (A ++ B).take n := by
  rw [List.take_append_eq_append_take, List.take_append_eq_append_take,
    List.take_take, Nat.min_eq_left (Nat.sub_le n A.length)]

lemma findTimer_filter_ne (tm : Timers) (tid tid' : String) (h : tid' ≠ tid) :
    findTimer (tm.filter (fun p => p.1 != tid)) tid' = findTimer tm tid' := by
  induction tm with
  | nil => rfl
  | cons p tm ih =>
      by_cases hp : p.1 = tid
      · rw [List.filter_cons_of_neg (by simp [hp]), ih, findTimer,
          if_neg (by rw [hp]; exact fun hh => h hh.symm)]
      · rw [List.filter_cons_of_pos (by simp [hp]), findTimer, findTimer]
        by_cases hp' : p.1 = tid'
        · rw [if_pos hp', if_pos hp']
        · rw [if_neg hp', if_neg hp', ih]

lemma findTimer_arm_self (tm : Timers) (tid : String) (d : Option Nat) :
    findTimer (addToRemoveQueue tm tid d) tid
      = some (d.getD TOAST_REMOVE_DELAY) := by
  simp [addToRemoveQueue, findTimer]

lemma findTimer_arm_ne (tm : Timers) (tid tid' : String) (d : Option Nat)
    (h : tid' ≠ tid) :
    findTimer (addToRemoveQueue tm tid d) tid' = findTimer tm tid' := by
  rw [addToRemoveQueue, findTimer, if_neg (fun hh => h hh.symm),
    findTimer_filter_ne tm tid tid' h]

lemma findTimer_foldl_not_mem (ts : List ToasterToast) (tm : Timers)
    (tid : String) (h : ∀ t ∈ ts, t.id ≠ tid) :
    findTimer (ts.foldl (fun tm t => addToRemoveQueue tm t.id t.duration) tm)
        tid
      = findTimer tm tid := by
  induction ts generalizing tm with
  | nil => rfl
  | cons t ts ih =>
      rw [List.foldl_cons,
        ih _ (fun u hu => h u (List.mem_cons_of_mem t hu)),
        findTimer_arm_ne _ _ _ _ (h t (List.mem_cons_self t ts)).symm]

lemma findTimer_foldl_mem (ts : List ToasterToast) (tm : Timers)
    (t : ToasterToast) (hnd : (ts.map ToasterToast.id).Nodup) (hmem : t ∈ ts) :
    findTimer (ts.foldl (fun tm u => addToRemoveQueue tm u.id u.duration) tm)
        t.id
      = some (t.duration.getD TOAST_REMOVE_DELAY) := by
  induction ts generalizing tm with
  | nil => cases hmem
  | cons u ts ih =>
      rw [List.map_cons, List.nodup_cons] at hnd
      rcases List.mem_cons.mp hmem with rfl | hmem'
      · rw [List.foldl_cons]
        have hrest : ∀ v ∈ ts, v.id ≠ t.id := by
          intro v hv hvid
          exact hnd.1 (hvid ▸ List.mem_map_of_mem ToasterToast.id hv)
        rw [findTimer_foldl_not_mem ts _ t.id hrest, findTimer_arm_self]
      · rw [List.foldl_cons]
        exact ih (addToRemoveQueue tm u.id u.duration) hnd.2 hmem'

lemma reducer_dismiss_some_timers (s : State) (tm : Timers) (tid : String)
    (h : tid ≠ "") :
    (reducer s tm (Action.dismissToast (some tid))).2
      = addToRemoveQueue tm tid none := by
  simp [reducer, h]

lemma reducer_dismiss_none_timers (s : State) (tm : Timers) :
    (reducer s tm (Action.dismissToast none)).2
      = s.toasts.foldl (fun tm t => addToRemoveQueue tm t.id t.duration) tm :=
  rfl

lemma reducer_dismiss_toasts (s : State) (tm : Timers)
    (toastId : Option String) :
    (reducer s tm (Action.dismissToast toastId)).1.toasts
      = s.toasts.map (dismissFlag toastId) := rfl

lemma reducer_update_toasts (s : State) (tm : Timers) (p : ToastPatch) :
    (reducer s tm (Action.updateToast p)).1.toasts
      = s.toasts.map (fun t => if t.id = p.id then applyPatch t p else t) :=
  rfl

lemma reducer_remove_some_toasts (s : State) (tm : Timers) (tid : String) :
    (reducer s tm (Action.removeToast (some tid))).1.toasts
      = s.toasts.filter (fun t => t.id != tid) := rfl

lemma dismissFlag_idem (toastId : Option String) (t : ToasterToast) :
    dismissFlag toastId (dismissFlag toastId t) = dismissFlag toastId t := by
  by_cases h : some t.id = toastId ∨ toastId = none
  · have h1 : dismissFlag toastId t = { t with isOpen := false } := if_pos h
    rw [h1]
    have h2 : some (ToasterToast.id { t with isOpen := false }) = toastId
        ∨ toastId = none := h
    exact if_pos h2
  · have h1 : dismissFlag toastId t = t := if_neg h
    rw [h1]
    exact h1

lemma applyAdds_toasts_aux (ts : List ToasterToast) :
    ∀ (l : List ToasterToast) (tm : Timers), l.length ≤ TOAST_LIMIT →
    (dispatchAll ⟨⟨l⟩, tm⟩ (ts.map Action.addToast)).state.toasts
      = (ts.reverse ++ l).take TOAST_LIMIT := by
  induction ts with
  | nil =>
      intro l tm hl
      simp only [List.map_nil, dispatchAll, List.foldl_nil, List.reverse_nil,
        List.nil_append]
      exact (List.take_of_length_le hl).symm
  | cons t ts ih =>
      intro l tm hl
      simp only [List.map_cons, dispatchAll, List.foldl_cons]
      have hstep : dispatch ⟨⟨l⟩, tm⟩ (Action.addToast t)
          = ⟨⟨(t :: l).take TOAST_LIMIT⟩, tm⟩ := rfl
      rw [hstep]
      have hrec := ih ((t :: l).take TOAST_LIMIT) tm (List.length_take_le _ _)
      simp only [dispatchAll] at hrec
      rw [hrec, take_append_take, List.reverse_cons, List.append_assoc,
        List.singleton_append]

/-! ### Claims -/

/-- C1 (counterexample): the claim states the reducer never schedules a timer
(the registry is unchanged by every call).  Dispatching
`DISMISS_TOAST {toastId: "1"}` on the empty state through the reducer inserts
a timer entry for `"1"` into the previously empty registry, because the
source reducer calls `addToRemoveQueue` inside the `DISMISS_TOAST` case. -/
theorem toast_C1_counterexample :
    (reducer ⟨[]⟩ [] (Action.dismissToast (some "1"))).2 ≠ [] := by decide

/-- C1 (amended): the reducer leaves the timer registry unchanged for
`ADD_TOAST`, `UPDATE_TOAST` and `REMOVE_TOAST` actions; however, for
`DISMISS_TOAST` it schedules removal timers and for `CLEAR_ALL_TOASTS` it
empties the registry, so the reducer is not free of timer effects. -/
theorem toast_C1_amended :
    (∀ (s : State) (tm : Timers) (t : ToasterToast),
        (reducer s tm (Action.addToast t)).2 = tm)
    ∧ (∀ (s : State) (tm : Timers) (p : ToastPatch),
        (reducer s tm (Action.updateToast p)).2 = tm)
    ∧ (∀ (s : State) (tm : Timers) (tid : Option String),
        (reducer s tm (Action.removeToast tid)).2 = tm)
    ∧ (∀ (s : State) (tm : Timers),
        (reducer s tm Action.clearAllToasts).2 = []) := by
  refine ⟨fun s tm t => rfl, fun s tm p => rfl, fun s tm tid => ?_,
    fun s tm => rfl⟩
  cases tid <;> rfl

/-- C2 (counterexample): the claim states the timer registry is empty after
any action sequence ending in a full `REMOVE` (no toastId).  Dispatching
`DISMISS_TOAST {toastId: "x"}` and then `REMOVE_TOAST {}` from the initial
store leaves the timer armed for `"x"` in the registry, because the
`REMOVE_TOAST` case never touches `toastTimeouts`. -/
theorem toast_C2_counterexample :
    (dispatchAll initialSys
        [Action.dismissToast (some "x"), Action.removeToast none]).timers
      ≠ [] := by decide

/-- C2 (amended): after any sequence of dispatched actions ending in
`CLEAR_ALL_TOASTS` the timer registry is empty; a full `REMOVE_TOAST`
(no toastId), by contrast, leaves the registry exactly as it was, so it can
remain non-empty. -/
theorem toast_C2_amended :
    (∀ (sys : Sys) (acts : List Action),
        (dispatchAll sys (acts ++ [Action.clearAllToasts])).timers = [])
    ∧ (∀ sys : Sys,
        (dispatch sys (Action.removeToast none)).timers = sys.timers) := by
  constructor
  · intro sys acts
    rw [dispatchAll, List.foldl_append]
    rfl
  · intro sys
    rfl

/-- C3: through the reducer, every `ADD_TOAST` yields a toast count of
`min TOAST_LIMIT (previousCount + 1)` with `TOAST_LIMIT = 5`; folding any
sequence of `ADD_TOAST` dispatches from the initial store leaves exactly the
most recently added `TOAST_LIMIT` toasts, newest first; and every action
preserves the bound `length ≤ TOAST_LIMIT`. -/
theorem toast_C3 :
    (∀ (s : State) (tm : Timers) (t : ToasterToast),
        ((reducer s tm (Action.addToast t)).1.toasts).length
          = min TOAST_LIMIT (s.toasts.length + 1))
    ∧ (∀ ts : List ToasterToast,
        (applyAdds ts).state.toasts = ts.reverse.take TOAST_LIMIT)
    ∧ (∀ (s : State) (tm : Timers) (a : Action),
        s.toasts.length ≤ TOAST_LIMIT →
        ((reducer s tm a).1.toasts).length ≤ TOAST_LIMIT) := by
  refine ⟨fun s tm t => ?_, fun ts => ?_, fun s tm a h => ?_⟩
  · simp [reducer, List.length_take]
  · have := applyAdds_toasts_aux ts [] [] (by simp)
    simpa [applyAdds, initialSys] using this
  · cases a with
    | addToast t => simp [reducer, List.length_take]
    | updateToast p => simpa [reducer] using h
    | dismissToast tid => simpa [reducer] using h
    | removeToast tid =>
        cases tid with
        | none => simp [reducer]
        | some tid =>
            rw [show (reducer s tm (Action.removeToast (some tid))).1.toasts
                = s.toasts.filter (fun t => t.id != tid) from rfl]
            exact le_trans (List.length_filter_le _ _) h
    | clearAllToasts => simp [reducer]

/-- C3 (witness): concrete instance of `toast_C3` at a two-toast run. -/
theorem toast_C3_witness :
    ((reducer ⟨[mkT "a"]⟩ [] (Action.addToast (mkT "b"))).1.toasts).length
        = min TOAST_LIMIT 2
    ∧ (applyAdds [mkT "a", mkT "b"]).state.toasts = [mkT "b", mkT "a"]
    ∧ ((reducer ⟨[mkT "a"]⟩ [] (Action.removeToast none)).1.toasts).length
        ≤ TOAST_LIMIT := by
  refine ⟨toast_C3.1 ⟨[mkT "a"]⟩ [] (mkT "b"), ?_,
    toast_C3.2.2 ⟨[mkT "a"]⟩ [] (Action.removeToast none) (by decide)⟩
  rw [toast_C3.2.1 [mkT "a", mkT "b"]]
  decide

/-- C4 (counterexample): the claim states a `DISMISS` with a toastId
schedules the removal timer with that toast's own `duration` when set.  For a
state holding the toast `{id: "1", duration: 200}`, dismissing `"1"` arms the
timer with the default `TOAST_REMOVE_DELAY = 5000`, not `200`, because the
source calls `addToRemoveQueue(toastId)` without passing the duration. -/
theorem toast_C4_counterexample :
    findTimer (reducer ⟨[⟨"1", none, none, none, none, true, some 200⟩]⟩ []
        (Action.dismissToast (some "1"))).2 "1" ≠ some 200
    ∧ findTimer (reducer ⟨[⟨"1", none, none, none, none, true, some 200⟩]⟩ []
        (Action.dismissToast (some "1"))).2 "1" = some TOAST_REMOVE_DELAY := by
  decide

/-- C4 (amended): a `DISMISS` with a (non-empty) toastId always schedules the
removal timer with the default delay `TOAST_REMOVE_DELAY`, ignoring the
toast's own `duration`; a `DISMISS` with no toastId schedules a timer for
every active toast using that toast's own `duration` (default when unset). -/
theorem toast_C4_amended :
    (∀ (s : State) (tm : Timers) (tid : String), tid ≠ "" →
        findTimer (reducer s tm (Action.dismissToast (some tid))).2 tid
          = some TOAST_REMOVE_DELAY)
    ∧ (∀ (s : State) (tm : Timers) (t : ToasterToast),
        (s.toasts.map ToasterToast.id).Nodup → t ∈ s.toasts →
        findTimer (reducer s tm (Action.dismissToast none)).2 t.id
          = some (t.duration.getD TOAST_REMOVE_DELAY)) := by
  constructor
  · intro s tm tid h
    rw [reducer_dismiss_some_timers s tm tid h, findTimer_arm_self]
    rfl
  · intro s tm t hnd hmem
    rw [reducer_dismiss_none_timers, findTimer_foldl_mem s.toasts tm t hnd hmem]

/-- C4 (witness): concrete instance of `toast_C4_amended`. -/
theorem toast_C4_witness :
    ("a" : String) ≠ ""
    ∧ findTimer (reducer ⟨[]⟩ [] (Action.dismissToast (some "a"))).2 "a"
        = some TOAST_REMOVE_DELAY
    ∧ findTimer (reducer ⟨[⟨"b", none, none, none, none, true, some 250⟩]⟩ []
        (Action.dismissToast none)).2 "b" = some 250 := by
  refine ⟨by decide, toast_C4_amended.1 ⟨[]⟩ [] "a" (by decide), ?_⟩
  exact toast_C4_amended.2 ⟨[⟨"b", none, none, none, none, true, some 250⟩]⟩ []
    ⟨"b", none, none, none, none, true, some 250⟩ (by decide) (by decide)

/-- C5 (counterexample): the claim states no auto-removal timer is ever
scheduled for a toast created with `duration = 0`.  For a state holding the
toast `{id: "1", duration: 0}`, a global `DISMISS` (no toastId) arms a timer
for `"1"` with delay `0 ?? TOAST_REMOVE_DELAY = 0`, so the persistent toast
is scheduled for removal after 0 ms. -/
theorem toast_C5_counterexample :
    findTimer (reducer ⟨[⟨"1", none, none, none, none, true, some 0⟩]⟩ []
        (Action.dismissToast none)).2 "1" = some 0 := by decide

/-- C5 (amended): a toast created with `duration = 0` gets no timer at
creation (the facade skips `addToRemoveQueue`); however, a `DISMISS` naming
its id schedules a default-delay removal timer for it, and a global `DISMISS`
schedules a removal timer for it with delay 0, so dismissal does arm
auto-removal even for persistent toasts. -/
theorem toast_C5_amended :
    (∀ (sys : Sys) (c : Nat) (props : ToastInput), props.duration = some 0 →
        (toast sys c props).1.timers = sys.timers)
    ∧ (∀ (s : State) (tm : Timers) (tid : String), tid ≠ "" →
        findTimer (reducer s tm (Action.dismissToast (some tid))).2 tid
          = some TOAST_REMOVE_DELAY)
    ∧ (∀ (s : State) (tm : Timers) (t : ToasterToast),
        (s.toasts.map ToasterToast.id).Nodup → t ∈ s.toasts →
        t.duration = some 0 →
        findTimer (reducer s tm (Action.dismissToast none)).2 t.id
          = some 0) := by
  refine ⟨fun sys c props h => ?_, fun s tm tid h => ?_,
    fun s tm t hnd hmem hd => ?_⟩
  · simp [toast, h, dispatch, reducer]
  · rw [reducer_dismiss_some_timers s tm tid h, findTimer_arm_self]
    rfl
  · rw [reducer_dismiss_none_timers, findTimer_foldl_mem s.toasts tm t hnd hmem,
      hd]
    rfl

/-- C5 (witness): concrete instance of `toast_C5_amended`. -/
theorem toast_C5_witness :
    (toast initialSys 0 ⟨none, none, none, none, some 0⟩).1.timers = []
    ∧ (("p" : String) ≠ "")
    ∧ findTimer (reducer ⟨[⟨"p", none, none, none, none, true, some 0⟩]⟩ []
        (Action.dismissToast none)).2 "p" = some 0 := by
  refine ⟨toast_C5_amended.1 initialSys 0 ⟨none, none, none, none, some 0⟩ rfl,
    by decide, ?_⟩
  exact toast_C5_amended.2.2 ⟨[⟨"p", none, none, none, none, true, some 0⟩]⟩ []
    ⟨"p", none, none, none, none, true, some 0⟩ (by decide) (by decide) rfl

/-- C6: dispatching `UPDATE_TOAST`, `DISMISS_TOAST` or `REMOVE_TOAST` with an
id not present in the state leaves the toast list equal to the previous toast
list (all embedded operations are total, so no exception can occur). -/
theorem toast_C6 (s : State) (tm : Timers) :
    (∀ p : ToastPatch, (∀ t ∈ s.toasts, t.id ≠ p.id) →
        (reducer s tm (Action.updateToast p)).1.toasts = s.toasts)
    ∧ (∀ tid : String, (∀ t ∈ s.toasts, t.id ≠ tid) →
        (reducer s tm (Action.dismissToast (some tid))).1.toasts = s.toasts)
    ∧ (∀ tid : String, (∀ t ∈ s.toasts, t.id ≠ tid) →
        (reducer s tm (Action.removeToast (some tid))).1.toasts = s.toasts) := by
  refine ⟨fun p h => ?_, fun tid h => ?_, fun tid h => ?_⟩
  · rw [reducer_update_toasts]
    exact map_id_of_mem _ _ (fun t ht => if_neg (h t ht))
  · rw [reducer_dismiss_toasts]
    apply map_id_of_mem
    intro t ht
    have hc : ¬(some t.id = some tid ∨ (some tid : Option String) = none) := by
      rintro (hc | hc)
      · exact h t ht (Option.some.inj hc)
      · cases hc
    exact if_neg hc
  · rw [reducer_remove_some_toasts, List.filter_eq_self]
    intro t ht
    simpa using h t ht

/-- C6 (witness): concrete instance of `toast_C6` with id `"b"` absent. -/
theorem toast_C6_witness :
    (∀ t ∈ [mkT "a"], t.id ≠ "b")
    ∧ (reducer ⟨[mkT "a"]⟩ [] (Action.updateToast
        ⟨"b", some (some "X"), none, none, none, none, none⟩)).1.toasts
        = [mkT "a"]
    ∧ (reducer ⟨[mkT "a"]⟩ []
        (Action.dismissToast (some "b"))).1.toasts = [mkT "a"]
    ∧ (reducer ⟨[mkT "a"]⟩ []
        (Action.removeToast (some "b"))).1.toasts = [mkT "a"] := by
  have h : ∀ t ∈ [mkT "a"], t.id ≠ ("b" : String) := by decide
  exact ⟨h,
    (toast_C6 ⟨[mkT "a"]⟩ []).1
      ⟨"b", some (some "X"), none, none, none, none, none⟩ h,
    (toast_C6 ⟨[mkT "a"]⟩ []).2.1 "b" h,
    (toast_C6 ⟨[mkT "a"]⟩ []).2.2 "b" h⟩

/-- C7: `UPDATE_TOAST {id, title: some x}` maps the state so that the toast
whose id matches gets exactly its `title` field replaced (all other fields
keep their prior values) and every non-matching toast is returned unchanged
(reference stability is modelled as equality in the pure embedding). -/
theorem toast_C7 (s : State) (tm : Timers) (tid x : String) :
    (reducer s tm (Action.updateToast
        ⟨tid, some (some x), none, none, none, none, none⟩)).1.toasts
      = s.toasts.map
          (fun t => if t.id = tid then { t with title := some x } else t) := by
  rw [reducer_update_toasts]
  have hfun : (fun t : ToasterToast =>
        if t.id = tid then
          applyPatch t ⟨tid, some (some x), none, none, none, none, none⟩
        else t)
      = (fun t => if t.id = tid then { t with title := some x } else t) := by
    funext t
    by_cases h : t.id = tid
    · rw [if_pos h, if_pos h]
      subst h
      cases t
      rfl
    · rw [if_neg h, if_neg h]
  rw [hfun]

/-- C8: dismiss is idempotent on the toast-list state: dispatching
`DISMISS_TOAST` with the same (optional) toastId twice in a row yields the
same toast list as dispatching it once. -/
theorem toast_C8 (s : State) (tm : Timers) (toastId : Option String) :
    (reducer (reducer s tm (Action.dismissToast toastId)).1
        (reducer s tm (Action.dismissToast toastId)).2
        (Action.dismissToast toastId)).1.toasts
      = (reducer s tm (Action.dismissToast toastId)).1.toasts := by
  have h1 : (reducer s tm (Action.dismissToast toastId)).1.toasts
      = s.toasts.map (dismissFlag toastId) := reducer_dismiss_toasts s tm toastId
  rw [reducer_dismiss_toasts, h1]
  exact map_idem (dismissFlag toastId) (dismissFlag_idem toastId) s.toasts

lemma digitChar_inj_lt :
    ∀ a < 10, ∀ b < 10, Nat.digitChar a = Nat.digitChar b → a = b := by
  decide

lemma map_digitChar_inj :
    ∀ l1 l2 : List Nat, (∀ x ∈ l1, x < 10) → (∀ x ∈ l2, x < 10) →
    l1.map Nat.digitChar = l2.map Nat.digitChar → l1 = l2 := by
  intro l1
  induction l1 with
  | nil =>
      intro l2 _ _ h
      cases l2 with
      | nil => rfl
      | cons b l2 => simp at h
  | cons a l1 ih =>
      intro l2 h1 h2 h
      cases l2 with
      | nil => simp at h
      | cons b l2 =>
          simp only [List.map_cons, List.cons.injEq] at h
          have hab : a = b :=
            digitChar_inj_lt a (h1 a (List.mem_cons_self a l1))
              b (h2 b (List.mem_cons_self b l2)) h.1
          rw [hab, ih l2 (fun x hx => h1 x (List.mem_cons_of_mem a hx))
            (fun x hx => h2 x (List.mem_cons_of_mem b hx)) h.2]

lemma natToString_inj_pos (m n : Nat) (hm : m ≠ 0) (hn : n ≠ 0)
    (h : natToString m = natToString n) : m = n := by
  rw [natToString, natToString, if_neg hm, if_neg hn] at h
  have hlists : (Nat.digits 10 m).reverse.map Nat.digitChar
      = (Nat.digits 10 n).reverse.map Nat.digitChar := by
    injection h
  have hrev : (Nat.digits 10 m).reverse = (Nat.digits 10 n).reverse :=
    map_digitChar_inj _ _
      (fun x hx => Nat.digits_lt_base (by norm_num) (List.mem_reverse.mp hx))
      (fun x hx => Nat.digits_lt_base (by norm_num) (List.mem_reverse.mp hx))
      hlists
  exact Nat.digits.injective 10 (List.reverse_injective hrev)

lemma countAfter_eq (n : Nat) : countAfter n = n % MAX_SAFE_INTEGER := by
  induction n with
  | zero => rfl
  | succ n ih =>
      show (countAfter n + 1) % MAX_SAFE_INTEGER = (n + 1) % MAX_SAFE_INTEGER
      rw [ih, Nat.add_mod n 1,
        Nat.mod_eq_of_lt (show 1 < MAX_SAFE_INTEGER by norm_num [MAX_SAFE_INTEGER])]

lemma nthId_eq (n : Nat) (h1 : 1 ≤ n) (h2 : n < MAX_SAFE_INTEGER) :
    nthId n = natToString n := by
  show natToString ((countAfter (n - 1) + 1) % MAX_SAFE_INTEGER)
      = natToString n
  rw [countAfter_eq,
    Nat.mod_eq_of_lt (lt_of_le_of_lt (Nat.sub_le n 1) h2),
    Nat.sub_add_cancel h1, Nat.mod_eq_of_lt h2]

/-- C9: each call to `genId` returns the decimal string of
`(previousCounter + 1) % Number.MAX_SAFE_INTEGER` (and that value becomes the
new counter), and — starting from the initial counter 0 — any two of the
first `MAX_SAFE_INTEGER - 1` generated ids are distinct. -/
theorem toast_C9 :
    (∀ c : Nat, genId c
        = (natToString ((c + 1) % MAX_SAFE_INTEGER),
           (c + 1) % MAX_SAFE_INTEGER))
    ∧ (∀ i j : Nat, 1 ≤ i → i < j → j ≤ MAX_SAFE_INTEGER - 1 →
        nthId i ≠ nthId j) := by
  refine ⟨fun c => rfl, fun i j hi hij hj => ?_⟩
  have hjM : j < MAX_SAFE_INTEGER :=
    lt_of_le_of_lt hj (by norm_num [MAX_SAFE_INTEGER])
  have hiM : i < MAX_SAFE_INTEGER := lt_trans hij hjM
  rw [nthId_eq i hi hiM, nthId_eq j (le_trans hi (le_of_lt hij)) hjM]
  intro h
  have := natToString_inj_pos i j (by omega) (by omega) h
  omega

/-- C9 (witness): the first and second generated ids are distinct. -/
theorem toast_C9_witness :
    (1 : Nat) ≤ 1 ∧ (1 : Nat) < 2 ∧ (2 : Nat) ≤ MAX_SAFE_INTEGER - 1
    ∧ nthId 1 ≠ nthId 2 :=
  ⟨le_refl 1, by norm_num, by norm_num [MAX_SAFE_INTEGER],
    toast_C9.2 1 2 (le_refl 1) (by norm_num)
      (by norm_num [MAX_SAFE_INTEGER])⟩

/-- C10: dispatching `DISMISS_TOAST` with a non-empty toastId that occurs in
no toast inserts a default-delay timer entry for that id into the registry
(a future `REMOVE` for a toast that does not exist), while the toast list
itself is unchanged. -/
theorem toast_C10 (s : State) (tm : Timers) (tid : String) (hid : tid ≠ "")
    (habs : ∀ t ∈ s.toasts, t.id ≠ tid) :
    findTimer (reducer s tm (Action.dismissToast (some tid))).2 tid
        = some TOAST_REMOVE_DELAY
    ∧ (reducer s tm (Action.dismissToast (some tid))).1.toasts = s.toasts := by
  constructor
  · rw [reducer_dismiss_some_timers s tm tid hid, findTimer_arm_self]
    rfl
  · rw [reducer_dismiss_toasts]
    apply map_id_of_mem
    intro t ht
    have hc : ¬(some t.id = some tid ∨ (some tid : Option String) = none) := by
      rintro (hc | hc)
      · exact habs t ht (Option.some.inj hc)
      · cases hc
    exact if_neg hc

/-- C10 (witness): concrete instance of `toast_C10` with absent id `"z"`. -/
theorem toast_C10_witness :
    (("z" : String) ≠ "") ∧ (∀ t ∈ [mkT "a"], t.id ≠ "z")
    ∧ findTimer (reducer ⟨[mkT "a"]⟩ []
        (Action.dismissToast (some "z"))).2 "z" = some TOAST_REMOVE_DELAY
    ∧ (reducer ⟨[mkT "a"]⟩ []
        (Action.dismissToast (some "z"))).1.toasts = [mkT "a"] := by
  have h1 : ("z" : String) ≠ "" := by decide
  have h2 : ∀ t ∈ [mkT "a"], t.id ≠ ("z" : String) := by decide
  exact ⟨h1, h2, (toast_C10 ⟨[mkT "a"]⟩ [] "z" h1 h2).1,
    (toast_C10 ⟨[mkT "a"]⟩ [] "z" h1 h2).2⟩

end UseToast
